import Mathlib

/-!
Verification of the lightyear transport/replication core against its
specification.  The Rust sources are shallowly embedded: byte streams are
`List Nat` of byte values, machine integers are `Nat` with explicit
`% 2 ^ w` where wrap-around matters, fallible readers return `Option`,
and stateful code is explicit state passing.
-/

set_option maxHeartbeats 1000000

namespace Lightyear

/-! ### Varints (LEB128)

Modelled from the spec: the file `serialize/varint.rs` is not under `src/`;
the spec states that length prefixes use unsigned LEB128-style varints
(low seven bits first, continuation bit `0x80`). -/

/-- Modelled from the spec: LEB128-unsigned varint writer (`write_varint`
in the missing `serialize/varint.rs`). -/
def writeVarint (n : Nat) : List Nat :=
  if _h : n < 128 then [n]
  else (n % 128 + 128) :: writeVarint (n / 128)
termination_by n
decreasing_by exact Nat.div_lt_self (by omega) (by omega)

/-- Modelled from the spec: LEB128-unsigned varint reader (`read_varint`
in the missing `serialize/varint.rs`).  Returns the value and the
remaining stream. -/
def readVarint : List Nat → Option (Nat × List Nat)
  | [] => none
  | b :: rest =>
    if b < 128 then some (b, rest)
    else
      match readVarint rest with
      | some (v, rest') => some (b % 128 + 128 * v, rest')
      | none => none

/-- Modelled from the spec: `varint_len` of the missing
`serialize/varint.rs`, the number of bytes of the LEB128 encoding. -/
def varint_len (n : Nat) : Nat :=
  if _h : n < 128 then 1
  else 1 + varint_len (n / 128)
termination_by n
decreasing_by exact Nat.div_lt_self (by omega) (by omega)

theorem writeVarint_length (n : Nat) : (writeVarint n).length = varint_len n := by
  induction n using Nat.strong_induction_on with
  | _ n ih =>
    by_cases h : n < 128
    · rw [writeVarint, varint_len]; simp [h]
    · rw [writeVarint, varint_len]
      simp only [h, dite_false, List.length_cons]
      rw [ih (n / 128) (Nat.div_lt_self (by omega) (by omega))]
      omega

theorem readVarint_writeVarint (n : Nat) (rest : List Nat) :
    readVarint (writeVarint n ++ rest) = some (n, rest) := by
  induction n using Nat.strong_induction_on with
  | _ n ih =>
    by_cases h : n < 128
    · rw [writeVarint]; simp [h, readVarint]
    · rw [writeVarint]
      simp only [h, dite_false, List.cons_append, readVarint]
      have h1 : ¬ (n % 128 + 128 < 128) := by omega
      simp only [h1, if_false]
      rw [ih (n / 128) (Nat.div_lt_self (by omega) (by omega))]
      have h2 : n % 128 + 128 * (n / 128) = n := by omega
      simp [h2]

/-! ### Fixed-width big-endian integers

The wire codec writes fixed-width integers in network endian
(`byteorder::NetworkEndian`, big-endian). -/

/-- Big-endian u16 writer (`write_u16::<NetworkEndian>`). -/
def writeU16 (n : Nat) : List Nat := [n / 256 % 256, n % 256]

/-- Big-endian u16 reader (`read_u16::<NetworkEndian>`). -/
def readU16 : List Nat → Option (Nat × List Nat)
  | b1 :: b2 :: rest => some (b1 * 256 + b2, rest)
  | _ => none

theorem readU16_writeU16 (n : Nat) (h : n < 65536) (rest : List Nat) :
    readU16 (writeU16 n ++ rest) = some (n, rest) := by
  simp only [writeU16, List.cons_append, List.nil_append, readU16]
  have : n / 256 % 256 * 256 + n % 256 = n := by omega
  rw [this]

/-- u8 writer (`write_u8`); the Rust argument is already a `u8`. -/
def writeU8 (n : Nat) : List Nat := [n]

/-- u8 reader (`read_u8`). -/
def readU8 : List Nat → Option (Nat × List Nat)
  | b :: rest => some (b, rest)
  | _ => none

/-- Big-endian u32 writer (`write_u32::<NetworkEndian>`). -/
def writeU32 (n : Nat) : List Nat :=
  [n / 16777216 % 256, n / 65536 % 256, n / 256 % 256, n % 256]

/-- Big-endian u32 reader (`read_u32::<NetworkEndian>`). -/
def readU32 : List Nat → Option (Nat × List Nat)
  | b1 :: b2 :: b3 :: b4 :: rest =>
    some (b1 * 16777216 + b2 * 65536 + b3 * 256 + b4, rest)
  | _ => none

theorem readU32_writeU32 (n : Nat) (h : n < 4294967296) (rest : List Nat) :
    readU32 (writeU32 n ++ rest) = some (n, rest) := by
  simp only [writeU32, List.cons_append, List.nil_append, readU32]
  have : n / 16777216 % 256 * 16777216 + n / 65536 % 256 * 65536 +
      n / 256 % 256 * 256 + n % 256 = n := by omega
  rw [this]

/-! ### SingleData and FragmentData (`packet/message.rs`) -/

/-- `SingleData` of `packet/message.rs`: an optional `MessageId` (u16) and
the payload bytes. -/
structure SingleData where
  id : Option Nat
  bytes : List Nat
deriving DecidableEq

/-- Rust type ranges for the fields of `SingleData`: the `MessageId` is a
`u16`. -/
def SingleData.wfB (s : SingleData) : Bool :=
  s.id.all (fun i => i < 65536)

/-- `SingleData::to_bytes`: a flag byte (0 = no id, 1 = has id), the
optional u16 network-endian id, a varint length, then the payload. -/
def SingleData.to_bytes (s : SingleData) : List Nat :=
  (match s.id with
   | some i => 1 :: writeU16 i
   | none => [0]) ++ writeVarint s.bytes.length ++ s.bytes

/-- `SingleData::from_bytes`: reads the flag byte (any value other than 1
means no id), the optional u16 id, the varint length, then exactly `len`
payload bytes.  Returns the value and the remaining stream (the Rust code
advances a `Cursor`). -/
def SingleData.from_bytes (l : List Nat) : Option (SingleData × List Nat) :=
  match l with
  | [] => none
  | flag :: rest =>
    let step1 : Option (Option Nat × List Nat) :=
      if flag == 1 then
        match readU16 rest with
        | some (i, r) => some (some i, r)
        | none => none
      else some (none, rest)
    match step1 with
    | none => none
    | some (id, r1) =>
      match readVarint r1 with
      | none => none
      | some (len, r2) =>
        if len ≤ r2.length then some (⟨id, r2.take len⟩, r2.drop len)
        else none

/-- `<SingleData as ToBytes>::len`: varint length prefix + payload length
+ 1 flag byte (+ 2 id bytes when the id is present). -/
def SingleData.len (s : SingleData) : Nat :=
  varint_len s.bytes.length + s.bytes.length +
    (match s.id with | some _ => 3 | none => 1)

theorem SingleData_roundtrip (s : SingleData) (h : s.wfB = true)
    (rest : List Nat) :
    SingleData.from_bytes (s.to_bytes ++ rest) = some (s, rest) := by
  obtain ⟨id, bytes⟩ := s
  cases id with
  | none =>
    simp [SingleData.to_bytes, SingleData.from_bytes, readVarint_writeVarint,
      List.take_left, List.drop_left]
  | some i =>
    have hi : i < 65536 := by
      simpa [SingleData.wfB] using h
    simp [SingleData.to_bytes, SingleData.from_bytes, readVarint_writeVarint,
      readU16_writeU16 i hi, List.take_left, List.drop_left]

/-- `FragmentData` of `packet/message.rs`. -/
structure FragmentData where
  message_id : Nat
  fragment_id : Nat
  num_fragments : Nat
  bytes : List Nat
deriving DecidableEq

/-- Rust type ranges for the fields of `FragmentData`: `MessageId` is u16,
the fragment indices are u8. -/
def FragmentData.wfB (f : FragmentData) : Bool :=
  decide (f.message_id < 65536) && decide (f.fragment_id < 256) &&
    decide (f.num_fragments < 256)

/-- `FragmentData::to_bytes`: u16 network-endian message id, u8 fragment
id, u8 fragment count, varint length, payload bytes. -/
def FragmentData.to_bytes (f : FragmentData) : List Nat :=
  writeU16 f.message_id ++ [f.fragment_id, f.num_fragments] ++
    writeVarint f.bytes.length ++ f.bytes

/-- `FragmentData::from_bytes`. -/
def FragmentData.from_bytes (l : List Nat) : Option (FragmentData × List Nat) :=
  match readU16 l with
  | none => none
  | some (mid, r1) =>
    match r1 with
    | fid :: nfrag :: r2 =>
      match readVarint r2 with
      | none => none
      | some (len, r3) =>
        if len ≤ r3.length then
          some (⟨mid, fid, nfrag, r3.take len⟩, r3.drop len)
        else none
    | _ => none

/-- `<FragmentData as ToBytes>::len`: 4 fixed bytes + payload + varint
length prefix. -/
def FragmentData.len (f : FragmentData) : Nat :=
  4 + f.bytes.length + varint_len f.bytes.length

theorem FragmentData_roundtrip (f : FragmentData)
    (h : f.wfB = true) (rest : List Nat) :
    FragmentData.from_bytes (f.to_bytes ++ rest) = some (f, rest) := by
  obtain ⟨mid, fid, nfrag, bytes⟩ := f
  have hmid : mid < 65536 := by
    simp only [FragmentData.wfB, Bool.and_eq_true, decide_eq_true_eq] at h
    exact h.1.1
  simp only [FragmentData.to_bytes, List.append_assoc, FragmentData.from_bytes]
  rw [readU16_writeU16 mid hmid]
  simp only [List.cons_append, List.nil_append]
  rw [readVarint_writeVarint]
  simp [List.take_left, List.drop_left]

/-- C6: for every well-formed SingleData value and FragmentData value v,
`from_bytes (to_bytes v) = v`, following the specified layouts (the
layouts themselves are the definitions of `to_bytes` above, transcribed
from `packet/message.rs`). -/
theorem C6_codec_roundtrip (s : SingleData) (f : FragmentData)
    (hs : s.wfB = true) (hf : f.wfB = true) :
    SingleData.from_bytes s.to_bytes = some (s, []) ∧
      FragmentData.from_bytes f.to_bytes = some (f, []) := by
  constructor
  · have := SingleData_roundtrip s hs []
    simpa using this
  · have := FragmentData_roundtrip f hf []
    simpa using this

/-- Witness for C6 at concrete values. -/
theorem C6_codec_roundtrip_witness :
    SingleData.from_bytes (SingleData.to_bytes ⟨some 7, [3, 200]⟩) =
        some (⟨some 7, [3, 200]⟩, []) ∧
      FragmentData.from_bytes (FragmentData.to_bytes ⟨300, 2, 3, [9]⟩) =
        some (⟨300, 2, 3, [9]⟩, []) :=
  C6_codec_roundtrip ⟨some 7, [3, 200]⟩ ⟨300, 2, 3, [9]⟩ (by decide) (by decide)

/-- C10: `ToBytes::len` returns exactly the number of bytes written by
`to_bytes`, for both SingleData and FragmentData. -/
theorem C10_len_eq_bytes_written (s : SingleData) (f : FragmentData) :
    (SingleData.to_bytes s).length = s.len ∧
      (FragmentData.to_bytes f).length = f.len := by
  constructor
  · obtain ⟨id, bytes⟩ := s
    cases id with
    | none =>
      simp [SingleData.to_bytes, SingleData.len, writeVarint_length]
    | some i =>
      simp [SingleData.to_bytes, SingleData.len, writeU16, writeVarint_length]
  · obtain ⟨mid, fid, nfrag, bytes⟩ := f
    simp [FragmentData.to_bytes, FragmentData.len, writeU16, writeVarint_length]
    omega

/-! ### Packet header and the receive path (`packet/message_manager.rs`)

The packet header layout is modelled from the spec (the file
`packet/header.rs` is not under `src/`):
`packet_id:u16 | ack:u16 | ack_bits:u32 | tick:u16 | type:u8`, with
`type` distinguishing Data (0) from DataFragment (1).  The channel id on
the wire is a varint (spec section 6.1; `protocol/channel.rs` is not
under `src/` either). -/

/-- Modelled from the spec: the packet header fields. -/
structure PacketHeader where
  packet_id : Nat
  ack_id : Nat
  ack_bits : Nat
  tick : Nat
  packet_type : Nat
deriving DecidableEq

/-- Rust type ranges of the header fields; `packet_type` has exactly the
two data discriminants of the spec. -/
def PacketHeader.wfB (h : PacketHeader) : Bool :=
  decide (h.packet_id < 65536) && decide (h.ack_id < 65536) &&
    decide (h.ack_bits < 4294967296) && decide (h.tick < 65536) &&
    decide (h.packet_type < 2)

/-- Modelled from the spec: header serialization. -/
def PacketHeader.to_bytes (h : PacketHeader) : List Nat :=
  writeU16 h.packet_id ++ writeU16 h.ack_id ++ writeU32 h.ack_bits ++
    writeU16 h.tick ++ [h.packet_type]

/-- Modelled from the spec: header parsing; an unknown `type` byte is a
serialization error. -/
def PacketHeader.from_bytes (l : List Nat) : Option (PacketHeader × List Nat) :=
  match readU16 l with
  | none => none
  | some (pid, r1) =>
    match readU16 r1 with
    | none => none
    | some (ak, r2) =>
      match readU32 r2 with
      | none => none
      | some (akb, r3) =>
        match readU16 r3 with
        | none => none
        | some (tk, r4) =>
          match readU8 r4 with
          | none => none
          | some (pt, r5) =>
            if pt < 2 then some (⟨pid, ak, akb, tk, pt⟩, r5) else none

theorem PacketHeader_roundtrip (h : PacketHeader)
    (hw : h.wfB = true) (rest : List Nat) :
    PacketHeader.from_bytes (h.to_bytes ++ rest) = some (h, rest) := by
  obtain ⟨pid, ak, akb, tk, pt⟩ := h
  simp only [PacketHeader.wfB, Bool.and_eq_true, decide_eq_true_eq] at hw
  obtain ⟨⟨⟨⟨h1, h2⟩, h3⟩, h4⟩, h5⟩ := hw
  simp [PacketHeader.to_bytes, PacketHeader.from_bytes, List.append_assoc,
    readU16_writeU16 pid h1, readU16_writeU16 ak h2, readU32_writeU32 akb h3,
    readU16_writeU16 tk h4, readU8, h5]

/-- `MessageData` of `packet/message.rs`. -/
inductive MessageData
  | single (d : SingleData)
  | fragment (d : FragmentData)
deriving DecidableEq

/-- `ReceiveMessage` of `packet/message.rs`: the payload together with the
sender tick at which the packet carrying it was sent. -/
structure ReceiveMessage where
  data : MessageData
  remote_sent_tick : Nat
deriving DecidableEq

/-- Association-list lookup, mirroring a `HashMap` `get`. -/
def alookup {β : Type} : List (Nat × β) → Nat → Option β
  | [], _ => none
  | p :: rest, k => if p.1 == k then some p.2 else alookup rest k

/-- Receiver-side projection of `MessageManager`: the channel registry
(net `ChannelId` to `ChannelKind`) and, per `ChannelKind`, the sequence
of `ReceiveMessage`s handed to the channel receiver through
`buffer_recv` (the channel receiver internals are not under `src/`, so a
receiver is abstracted as the list of its `buffer_recv` arguments).  The
sender-side ack state of the Rust struct (header manager, priority
manager, `packet_to_message_ack_map`) is not observed by the receive
claims and is omitted. -/
structure MessageManager where
  channel_registry : List (Nat × Nat)
  channels : List (Nat × List ReceiveMessage)
deriving DecidableEq

/-- Append a message to the receiver keyed by `k` (a `HashMap` `get_mut`
followed by a push; absent key leaves the map unchanged). -/
def bufferInto : List (Nat × List ReceiveMessage) → Nat → ReceiveMessage →
    List (Nat × List ReceiveMessage)
  | [], _, _ => []
  | p :: rest, k, msg =>
    if p.1 == k then (p.1, p.2 ++ [msg]) :: rest
    else p :: bufferInto rest k msg

theorem alookup_bufferInto (l : List (Nat × List ReceiveMessage))
    (k : Nat) (msg : ReceiveMessage) (k' : Nat) :
    alookup (bufferInto l k msg) k' =
      if k' = k then (alookup l k').map (fun b => b ++ [msg])
      else alookup l k' := by
  induction l with
  | nil => simp [bufferInto, alookup]
  | cons p rest ih =>
    by_cases hpk : p.1 = k <;> by_cases hk : k' = k <;>
      by_cases hpk' : p.1 = k' <;>
      simp_all [bufferInto, alookup]

/-- One `get_channel_mut(channel_id)?.receiver.buffer_recv(msg)` step of
`recv_packet`: resolve the net id through the registry, fail if the id or
the channel is unknown, otherwise append to that channel's receiver. -/
def MessageManager.recv_message (m : MessageManager) (cid : Nat)
    (msg : ReceiveMessage) : Option MessageManager :=
  match alookup m.channel_registry cid with
  | none => none
  | some kind =>
    match alookup m.channels kind with
    | none => none
    | some _ => some ⟨m.channel_registry, bufferInto m.channels kind msg⟩

/-- The inner loop of `recv_packet` step 4: read `count` `SingleData`
values and buffer each into the channel `cid`.  On error the partially
updated manager is kept (the Rust function mutates `self` in place). -/
def recvSingles (cid tick : Nat) : Nat → MessageManager → List Nat →
    Option (List Nat) × MessageManager
  | 0, m, rest => (some rest, m)
  | count + 1, m, rest =>
    match SingleData.from_bytes rest with
    | none => (none, m)
    | some (sd, rest') =>
      match m.recv_message cid ⟨.single sd, tick⟩ with
      | none => (none, m)
      | some m' => recvSingles cid tick count m' rest'

/-- The `while cursor.has_remaining()` loop of `recv_packet` step 4: read
channel-id and message-count varints, then the messages.  `fuel` bounds
the iteration count; every iteration consumes at least two bytes, so any
`fuel > ` remaining length is equivalent to the unbounded Rust loop. -/
def recvGroups (tick : Nat) : Nat → MessageManager → List Nat →
    Bool × MessageManager
  | 0, m, _ => (false, m)
  | fuel + 1, m, rest =>
    match rest with
    | [] => (true, m)
    | _ :: _ =>
      match readVarint rest with
      | none => (false, m)
      | some (cid, r1) =>
        match readVarint r1 with
        | none => (false, m)
        | some (count, r2) =>
          match recvSingles cid tick count m r2 with
          | (none, m') => (false, m')
          | (some r3, m') => recvGroups tick fuel m' r3

/-- `MessageManager::recv_packet`: parse the header, and dispatch the
channel-keyed payloads to the channel receivers, stamping every message
with the header tick.  Returns the header tick on success (`none` models
the `anyhow::Result` error case; the partially updated state is kept, as
`recv_packet` takes `&mut self`).  Steps 2 and 3 of the Rust function
update only the sender-side ack bookkeeping and are omitted (see
`MessageManager`). -/
def MessageManager.recv_packet (m : MessageManager) (packet : List Nat) :
    Option Nat × MessageManager :=
  match PacketHeader.from_bytes packet with
  | none => (none, m)
  | some (hdr, body) =>
    if hdr.packet_type == 1 then
      match readVarint body with
      | none => (none, m)
      | some (cid, r1) =>
        match FragmentData.from_bytes r1 with
        | none => (none, m)
        | some (fd, r2) =>
          match m.recv_message cid ⟨.fragment fd, hdr.tick⟩ with
          | none => (none, m)
          | some m' =>
            match recvGroups hdr.tick (r2.length + 1) m' r2 with
            | (false, m'') => (none, m'')
            | (true, m'') => (some hdr.tick, m'')
    else
      match recvGroups hdr.tick (body.length + 1) m body with
      | (false, m') => (none, m')
      | (true, m') => (some hdr.tick, m')

/-- The receive path only ever grows the channel receivers, all with the
same `remote_sent_tick`, and never touches the registry. -/
def ExtendsWithTick (tick : Nat) (m m' : MessageManager) : Prop :=
  m'.channel_registry = m.channel_registry ∧
  ∀ k : Nat, ∃ extra : List ReceiveMessage,
    (∀ msg ∈ extra, msg.remote_sent_tick = tick) ∧
    alookup m'.channels k = (alookup m.channels k).map (fun b => b ++ extra)

theorem ExtendsWithTick_refl (tick : Nat) (m : MessageManager) :
    ExtendsWithTick tick m m := by
  refine ⟨rfl, fun k => ⟨[], by simp, ?_⟩⟩
  cases alookup m.channels k <;> simp

theorem ExtendsWithTick_trans {tick : Nat} {m1 m2 m3 : MessageManager}
    (h12 : ExtendsWithTick tick m1 m2) (h23 : ExtendsWithTick tick m2 m3) :
    ExtendsWithTick tick m1 m3 := by
  obtain ⟨hr12, hc12⟩ := h12
  obtain ⟨hr23, hc23⟩ := h23
  refine ⟨hr23.trans hr12, fun k => ?_⟩
  obtain ⟨e1, he1, hl1⟩ := hc12 k
  obtain ⟨e2, he2, hl2⟩ := hc23 k
  refine ⟨e1 ++ e2, ?_, ?_⟩
  · intro msg hmsg
    rcases List.mem_append.mp hmsg with h | h
    · exact he1 msg h
    · exact he2 msg h
  · rw [hl2, hl1]
    cases alookup m1.channels k <;> simp

theorem recv_message_extends {m m' : MessageManager} {cid tick : Nat}
    {d : MessageData}
    (h : m.recv_message cid ⟨d, tick⟩ = some m') :
    ExtendsWithTick tick m m' := by
  unfold MessageManager.recv_message at h
  cases hreg : alookup m.channel_registry cid with
  | none => simp [hreg] at h
  | some kind =>
    simp only [hreg] at h
    cases hch : alookup m.channels kind with
    | none => simp [hch] at h
    | some _ =>
      simp only [hch, Option.some.injEq] at h
      obtain rfl := h.symm
      refine ⟨rfl, fun k => ?_⟩
      by_cases hk : k = kind
      · subst hk
        exact ⟨[⟨d, tick⟩], by simp, by simp [alookup_bufferInto]⟩
      · refine ⟨[], by simp, ?_⟩
        simp only [alookup_bufferInto, hk, if_false]
        cases alookup m.channels k <;> simp

theorem recvSingles_extends (cid tick : Nat) (count : Nat)
    (m : MessageManager) (rest : List Nat) :
    ExtendsWithTick tick m (recvSingles cid tick count m rest).2 := by
  induction count generalizing m rest with
  | zero => exact ExtendsWithTick_refl tick m
  | succ n ih =>
    rw [recvSingles]
    cases hsd : SingleData.from_bytes rest with
    | none => simp only [hsd]; exact ExtendsWithTick_refl tick m
    | some v =>
      obtain ⟨sd, rest'⟩ := v
      simp only [hsd]
      cases hrm : m.recv_message cid ⟨.single sd, tick⟩ with
      | none => simp only [hrm]; exact ExtendsWithTick_refl tick m
      | some m' =>
        simp only [hrm]
        exact ExtendsWithTick_trans (recv_message_extends hrm) (ih m' rest')

theorem recvGroups_extends (tick : Nat) (fuel : Nat) (m : MessageManager)
    (rest : List Nat) :
    ExtendsWithTick tick m (recvGroups tick fuel m rest).2 := by
  induction fuel generalizing m rest with
  | zero => exact ExtendsWithTick_refl tick m
  | succ f ih =>
    cases rest with
    | nil => exact ExtendsWithTick_refl tick m
    | cons b rs =>
      rw [recvGroups]
      cases h1 : readVarint (b :: rs) with
      | none => simp only [h1]; exact ExtendsWithTick_refl tick m
      | some v1 =>
        obtain ⟨cid, r1⟩ := v1
        simp only [h1]
        cases h2 : readVarint r1 with
        | none => simp only [h2]; exact ExtendsWithTick_refl tick m
        | some v2 =>
          obtain ⟨count, r2⟩ := v2
          simp only [h2]
          have hsing := recvSingles_extends cid tick count m r2
          cases h3 : recvSingles cid tick count m r2 with
          | mk res m' =>
            rw [h3] at hsing
            cases res with
            | none => exact hsing
            | some r3 => exact ExtendsWithTick_trans hsing (ih m' r3)

/-- C7: every successfully processed packet yields the tick parsed from
its header, and every message buffered into any channel receiver by the
call carries that single tick as its `remote_sent_tick`. -/
theorem C7_recv_packet_single_tick (m : MessageManager) (p : List Nat)
    (tick : Nat) (m' : MessageManager)
    (h : m.recv_packet p = (some tick, m')) :
    (∃ hdr rest, PacketHeader.from_bytes p = some (hdr, rest) ∧
      tick = hdr.tick) ∧
    ExtendsWithTick tick m m' := by
  unfold MessageManager.recv_packet at h
  cases hhdr : PacketHeader.from_bytes p with
  | none => simp [hhdr] at h
  | some v =>
    obtain ⟨hdr, body⟩ := v
    simp only [hhdr] at h
    by_cases hfrag : hdr.packet_type == 1
    · simp only [hfrag, if_true] at h
      cases h1 : readVarint body with
      | none => simp [h1] at h
      | some v1 =>
        obtain ⟨cid, r1⟩ := v1
        simp only [h1] at h
        cases h2 : FragmentData.from_bytes r1 with
        | none => simp [h2] at h
        | some v2 =>
          obtain ⟨fd, r2⟩ := v2
          simp only [h2] at h
          cases h3 : m.recv_message cid ⟨.fragment fd, hdr.tick⟩ with
          | none => simp [h3] at h
          | some m1 =>
            simp only [h3] at h
            have hgrp := recvGroups_extends hdr.tick (r2.length + 1) m1 r2
            cases h4 : recvGroups hdr.tick (r2.length + 1) m1 r2 with
            | mk ok m2 =>
              rw [h4] at h hgrp
              cases ok with
              | false => simp at h
              | true =>
                simp only [Prod.mk.injEq, Option.some.injEq] at h
                obtain ⟨rfl, rfl⟩ := h
                exact ⟨⟨hdr, body, rfl, rfl⟩,
                  ExtendsWithTick_trans (recv_message_extends h3) hgrp⟩
    · simp only [hfrag, if_false] at h
      have hgrp := recvGroups_extends hdr.tick (body.length + 1) m body
      cases h4 : recvGroups hdr.tick (body.length + 1) m body with
      | mk ok m2 =>
        rw [h4] at h hgrp
        cases ok with
        | false => simp at h
        | true =>
          simp only [Prod.mk.injEq, Option.some.injEq] at h
          obtain ⟨rfl, rfl⟩ := h
          exact ⟨⟨hdr, body, rfl, rfl⟩, hgrp⟩

/-- Witness for C7: a concrete one-channel manager receiving a concrete
Data packet with header tick 7 carrying one message on channel id 3. -/
theorem C7_recv_packet_single_tick_witness :
    (∃ hdr rest,
      PacketHeader.from_bytes
        [0, 0, 0, 0, 0, 0, 0, 0, 0, 7, 0, 3, 1, 0, 1, 42] =
          some (hdr, rest) ∧ (7 : Nat) = hdr.tick) ∧
    ExtendsWithTick 7 ⟨[(3, 30)], [(30, [])]⟩
      ⟨[(3, 30)], [(30, [⟨.single ⟨none, [42]⟩, 7⟩])]⟩ :=
  C7_recv_packet_single_tick ⟨[(3, 30)], [(30, [])]⟩
    [0, 0, 0, 0, 0, 0, 0, 0, 0, 7, 0, 3, 1, 0, 1, 42] 7
    ⟨[(3, 30)], [(30, [⟨.single ⟨none, [42]⟩, 7⟩])]⟩ (by decide)

/-! ### Unknown channel ids (C9) -/

theorem varint_len_pos (n : Nat) : 1 ≤ varint_len n := by
  rw [varint_len]; split <;> omega

theorem writeVarint_length_pos (n : Nat) : 1 ≤ (writeVarint n).length := by
  rw [writeVarint_length]; exact varint_len_pos n

theorem alookup_mem {β : Type} (l : List (Nat × β)) (k : Nat) (v : β)
    (h : alookup l k = some v) : v ∈ l.map Prod.snd := by
  induction l with
  | nil => simp [alookup] at h
  | cons p rest ih =>
    by_cases hpk : p.1 = k
    · simp only [alookup, hpk, beq_self_eq_true, if_true,
        Option.some.injEq] at h
      simp [← h]
    · have hb : (p.1 == k) = false := by simp [hpk]
      simp only [alookup, hb, if_false] at h
      simp [ih h]

/-- Kinds outside the registry never see their receiver change, and the
registry itself never changes, across the receive path. -/
def PreservesOutside (m m' : MessageManager) : Prop :=
  m'.channel_registry = m.channel_registry ∧
  ∀ k : Nat, k ∉ m.channel_registry.map Prod.snd →
    alookup m'.channels k = alookup m.channels k

theorem PreservesOutside_refl (m : MessageManager) : PreservesOutside m m :=
  ⟨rfl, fun _ _ => rfl⟩

theorem PreservesOutside_trans {m1 m2 m3 : MessageManager}
    (h12 : PreservesOutside m1 m2) (h23 : PreservesOutside m2 m3) :
    PreservesOutside m1 m3 := by
  refine ⟨h23.1.trans h12.1, fun k hk => ?_⟩
  have hk2 : k ∉ m2.channel_registry.map Prod.snd := by
    rw [h12.1]; exact hk
  exact (h23.2 k hk2).trans (h12.2 k hk)

theorem recv_message_outside {m m' : MessageManager} {cid : Nat}
    {msg : ReceiveMessage}
    (h : m.recv_message cid msg = some m') : PreservesOutside m m' := by
  unfold MessageManager.recv_message at h
  cases hreg : alookup m.channel_registry cid with
  | none => simp [hreg] at h
  | some kind =>
    simp only [hreg] at h
    cases hch : alookup m.channels kind with
    | none => simp [hch] at h
    | some _ =>
      simp only [hch, Option.some.injEq] at h
      obtain rfl := h.symm
      refine ⟨rfl, fun k hk => ?_⟩
      have hkind : kind ∈ m.channel_registry.map Prod.snd :=
        alookup_mem m.channel_registry cid kind hreg
      have hne : k ≠ kind := fun hkk => hk (hkk ▸ hkind)
      simp [alookup_bufferInto, hne]

theorem recvSingles_outside (cid tick : Nat) (count : Nat)
    (m : MessageManager) (rest : List Nat) :
    PreservesOutside m (recvSingles cid tick count m rest).2 := by
  induction count generalizing m rest with
  | zero => exact PreservesOutside_refl m
  | succ n ih =>
    rw [recvSingles]
    cases hsd : SingleData.from_bytes rest with
    | none => simp only [hsd]; exact PreservesOutside_refl m
    | some v =>
      obtain ⟨sd, rest'⟩ := v
      simp only [hsd]
      cases hrm : m.recv_message cid ⟨.single sd, tick⟩ with
      | none => simp only [hrm]; exact PreservesOutside_refl m
      | some m' =>
        simp only [hrm]
        exact PreservesOutside_trans (recv_message_outside hrm) (ih m' rest')

theorem recvGroups_outside (tick : Nat) (fuel : Nat) (m : MessageManager)
    (rest : List Nat) :
    PreservesOutside m (recvGroups tick fuel m rest).2 := by
  induction fuel generalizing m rest with
  | zero => exact PreservesOutside_refl m
  | succ f ih =>
    cases rest with
    | nil => exact PreservesOutside_refl m
    | cons b rs =>
      rw [recvGroups]
      cases h1 : readVarint (b :: rs) with
      | none => simp only [h1]; exact PreservesOutside_refl m
      | some v1 =>
        obtain ⟨cid, r1⟩ := v1
        simp only [h1]
        cases h2 : readVarint r1 with
        | none => simp only [h2]; exact PreservesOutside_refl m
        | some v2 =>
          obtain ⟨count, r2⟩ := v2
          simp only [h2]
          have hsing := recvSingles_outside cid tick count m r2
          cases h3 : recvSingles cid tick count m r2 with
          | mk res m' =>
            rw [h3] at hsing
            cases res with
            | none => exact hsing
            | some r3 => exact PreservesOutside_trans hsing (ih m' r3)

theorem recv_packet_outside (m : MessageManager) (p : List Nat) :
    PreservesOutside m (m.recv_packet p).2 := by
  unfold MessageManager.recv_packet
  cases hhdr : PacketHeader.from_bytes p with
  | none => exact PreservesOutside_refl m
  | some v =>
    obtain ⟨hdr, body⟩ := v
    by_cases hfrag : hdr.packet_type == 1
    · simp only [hfrag, if_true]
      cases h1 : readVarint body with
      | none => exact PreservesOutside_refl m
      | some v1 =>
        obtain ⟨cid, r1⟩ := v1
        simp only [h1]
        cases h2 : FragmentData.from_bytes r1 with
        | none => exact PreservesOutside_refl m
        | some v2 =>
          obtain ⟨fd, r2⟩ := v2
          simp only [h2]
          cases h3 : m.recv_message cid ⟨.fragment fd, hdr.tick⟩ with
          | none => exact PreservesOutside_refl m
          | some m1 =>
            simp only [h3]
            have hgrp := recvGroups_outside hdr.tick (r2.length + 1) m1 r2
            cases h4 : recvGroups hdr.tick (r2.length + 1) m1 r2 with
            | mk ok m2 =>
              rw [h4] at hgrp
              have := PreservesOutside_trans (recv_message_outside h3) hgrp
              cases ok <;> simpa using this
    · simp only [hfrag, if_false]
      have hgrp := recvGroups_outside hdr.tick (body.length + 1) m body
      cases h4 : recvGroups hdr.tick (body.length + 1) m body with
      | mk ok m2 =>
        rw [h4] at hgrp
        cases ok <;> simpa using hgrp

/-- Serialized channel block of a Data packet (spec section 6.1):
`channel_id:varint | count:varint | SingleData{count}`. -/
def blockBytes (b : Nat × List SingleData) : List Nat :=
  writeVarint b.1 ++ writeVarint b.2.length ++
    (b.2.map SingleData.to_bytes).join

/-- A structured Data packet: header plus channel blocks. -/
structure DataPacket where
  header : PacketHeader
  blocks : List (Nat × List SingleData)

/-- Serialization of a Data packet, following the spec wire layout. -/
def DataPacket.to_bytes (p : DataPacket) : List Nat :=
  p.header.to_bytes ++ (p.blocks.map blockBytes).join

/-- A channel block the receive loop can fully consume: its channel id is
registered, the channel exists, and its messages are well-formed. -/
def GoodBlock (m : MessageManager) (b : Nat × List SingleData) : Prop :=
  (∃ kind, alookup m.channel_registry b.1 = some kind ∧
    (alookup m.channels kind).isSome = true) ∧
  ∀ s ∈ b.2, s.wfB = true

theorem GoodBlock_mono {tick : Nat} {m m' : MessageManager}
    {b : Nat × List SingleData} (hext : ExtendsWithTick tick m m')
    (hgb : GoodBlock m b) : GoodBlock m' b := by
  obtain ⟨⟨kind, hreg, hch⟩, hwf⟩ := hgb
  refine ⟨⟨kind, by rw [hext.1]; exact hreg, ?_⟩, hwf⟩
  obtain ⟨extra, _, hl⟩ := hext.2 kind
  rw [hl]
  cases hx : alookup m.channels kind with
  | none => rw [hx] at hch; simp at hch
  | some _ => simp

theorem recvSingles_ser (cid tick kind : Nat) (msgs : List SingleData)
    (m : MessageManager) (rest : List Nat)
    (hreg : alookup m.channel_registry cid = some kind)
    (hch : (alookup m.channels kind).isSome = true)
    (hwf : ∀ s ∈ msgs, s.wfB = true) :
    ∃ m', recvSingles cid tick msgs.length m
        ((msgs.map SingleData.to_bytes).join ++ rest) = (some rest, m') ∧
      ExtendsWithTick tick m m' := by
  induction msgs generalizing m with
  | nil => exact ⟨m, by simp [recvSingles], ExtendsWithTick_refl tick m⟩
  | cons s ms ih =>
    have hs : s.wfB = true := hwf s (by simp)
    have hjoin : ((s :: ms).map SingleData.to_bytes).join ++ rest =
        s.to_bytes ++ ((ms.map SingleData.to_bytes).join ++ rest) := by
      simp
    obtain ⟨buf, hbuf⟩ : ∃ buf, alookup m.channels kind = some buf := by
      cases hx : alookup m.channels kind with
      | none => rw [hx] at hch; simp at hch
      | some b => exact ⟨b, rfl⟩
    have hrm : m.recv_message cid ⟨.single s, tick⟩ =
        some ⟨m.channel_registry, bufferInto m.channels kind ⟨.single s, tick⟩⟩ := by
      unfold MessageManager.recv_message
      simp [hreg, hbuf]
    set m1 : MessageManager :=
      ⟨m.channel_registry, bufferInto m.channels kind ⟨.single s, tick⟩⟩ with hm1
    have hext1 : ExtendsWithTick tick m m1 := recv_message_extends hrm
    have hreg1 : alookup m1.channel_registry cid = some kind := hreg
    have hch1 : (alookup m1.channels kind).isSome = true := by
      show (alookup (bufferInto m.channels kind ⟨.single s, tick⟩) kind).isSome = true
      simp [alookup_bufferInto, hbuf]
    obtain ⟨m', hrun, hext⟩ :=
      ih m1 hreg1 hch1 (fun x hx => hwf x (by simp [hx]))
    refine ⟨m', ?_, ExtendsWithTick_trans hext1 hext⟩
    rw [List.length_cons, hjoin, recvSingles,
      SingleData_roundtrip s hs]
    simp only [hrm]
    exact hrun

theorem writeVarint_ne_nil (n : Nat) : writeVarint n ≠ [] := by
  rw [writeVarint]; split <;> simp

/-- The receive loop body, once the remaining stream is known nonempty. -/
theorem recvGroups_step (tick f : Nat) (m : MessageManager) (rest : List Nat)
    (h : rest ≠ []) :
    recvGroups tick (f + 1) m rest =
      match readVarint rest with
      | none => (false, m)
      | some (cid, r1) =>
        match readVarint r1 with
        | none => (false, m)
        | some (count, r2) =>
          match recvSingles cid tick count m r2 with
          | (none, m') => (false, m')
          | (some r3, m') => recvGroups tick f m' r3 := by
  cases rest with
  | nil => exact absurd rfl h
  | cons b bs => rw [recvGroups]

theorem recvGroups_unknown (tick : Nat) (pre : List (Nat × List SingleData))
    (c : Nat) (s0 : SingleData) (ms : List SingleData)
    (post : List (Nat × List SingleData)) :
    ∀ (fuel : Nat) (m : MessageManager),
    (((pre ++ (c, s0 :: ms) :: post).map blockBytes).join.length + 1 ≤ fuel) →
    (∀ b ∈ pre, GoodBlock m b) →
    alookup m.channel_registry c = none →
    s0.wfB = true →
    (recvGroups tick fuel m
      ((pre ++ (c, s0 :: ms) :: post).map blockBytes).join).1 = false := by
  induction pre with
  | nil =>
    intro fuel m hfuel _hpre hc hs0
    cases fuel with
    | zero => omega
    | succ f =>
      have hbytes : (([] ++ (c, s0 :: ms) :: post).map blockBytes).join =
          writeVarint c ++ (writeVarint (s0 :: ms).length ++
            (((s0 :: ms).map SingleData.to_bytes).join ++
              (post.map blockBytes).join)) := by
        simp [blockBytes]
      rw [hbytes, recvGroups_step tick f m _
        (fun hcon => writeVarint_ne_nil c (List.append_eq_nil.mp hcon).1)]
      simp only [readVarint_writeVarint]
      have hsing : recvSingles c tick (s0 :: ms).length m
          (((s0 :: ms).map SingleData.to_bytes).join ++
            (post.map blockBytes).join) = (none, m) := by
        have hjoin : ((s0 :: ms).map SingleData.to_bytes).join ++
            (post.map blockBytes).join =
            s0.to_bytes ++ ((ms.map SingleData.to_bytes).join ++
              (post.map blockBytes).join) := by
          simp
        rw [List.length_cons, hjoin, recvSingles,
          SingleData_roundtrip s0 hs0]
        have hrm : m.recv_message c ⟨.single s0, tick⟩ = none := by
          unfold MessageManager.recv_message
          simp [hc]
        simp [hrm]
      rw [hsing]
  | cons b pre' ih =>
    intro fuel m hfuel hpre hc hs0
    cases fuel with
    | zero => omega
    | succ f =>
      have hgb : GoodBlock m b := hpre b (by simp)
      obtain ⟨⟨kind, hreg, hch⟩, hwfb⟩ := hgb
      have hbytes : (((b :: pre') ++ (c, s0 :: ms) :: post).map blockBytes).join =
          writeVarint b.1 ++ (writeVarint b.2.length ++
            ((b.2.map SingleData.to_bytes).join ++
              ((pre' ++ (c, s0 :: ms) :: post).map blockBytes).join)) := by
        simp [blockBytes]
      rw [hbytes, recvGroups_step tick f m _
        (fun hcon => writeVarint_ne_nil b.1 (List.append_eq_nil.mp hcon).1)]
      simp only [readVarint_writeVarint]
      obtain ⟨m1, hrun, hext⟩ := recvSingles_ser b.1 tick kind b.2 m
        (((pre' ++ (c, s0 :: ms) :: post).map blockBytes).join) hreg hch hwfb
      rw [hrun]
      have hfuel1 :
          ((pre' ++ (c, s0 :: ms) :: post).map blockBytes).join.length + 1 ≤ f := by
        rw [hbytes] at hfuel
        simp only [List.length_append] at hfuel
        have h1 := writeVarint_length_pos b.1
        omega
      have hpre1 : ∀ x ∈ pre', GoodBlock m1 x := fun x hx =>
        GoodBlock_mono hext (hpre x (by simp [hx]))
      have hc1 : alookup m1.channel_registry c = none := by
        rw [hext.1]; exact hc
      exact ih f m1 hfuel1 hpre1 hc1 hs0

/-- C9 (amended): for every received packet that requires reading a
message from an unregistered channel id, `recv_packet` returns an error
rather than panicking: a Data packet that contains, after any number of
fully-consumable blocks, a channel block with an unregistered channel id
and at least one message, and likewise every DataFragment packet whose
fragment channel id is unregistered (there the channel lookup is
unconditional).  Moreover on any packet whatsoever, channels outside the
registry never receive a message.  Only a Data block with a zero message
count escapes, because the per-message channel lookup is never
reached. -/
theorem C9_unknown_channel_drops (m : MessageManager) (hdr : PacketHeader)
    (pre : List (Nat × List SingleData)) (c : Nat) (s0 : SingleData)
    (ms : List SingleData) (post : List (Nat × List SingleData))
    (hw : hdr.wfB = true) (hty : hdr.packet_type = 0)
    (hpre : ∀ b ∈ pre, GoodBlock m b)
    (hc : alookup m.channel_registry c = none)
    (hs0 : s0.wfB = true) :
    (m.recv_packet
      (DataPacket.to_bytes ⟨hdr, pre ++ (c, s0 :: ms) :: post⟩)).1 = none ∧
    (∀ (hdr2 : PacketHeader) (fd : FragmentData) (rest2 : List Nat),
      hdr2.wfB = true → hdr2.packet_type = 1 → fd.wfB = true →
      (m.recv_packet
        (hdr2.to_bytes ++ (writeVarint c ++ (fd.to_bytes ++ rest2)))).1 =
        none) ∧
    ∀ (p : List Nat) (k : Nat), k ∉ m.channel_registry.map Prod.snd →
      alookup (m.recv_packet p).2.channels k = alookup m.channels k := by
  refine ⟨?_, ?_, ?_⟩
  · unfold MessageManager.recv_packet
    rw [DataPacket.to_bytes,
      PacketHeader_roundtrip hdr hw
        (((pre ++ (c, s0 :: ms) :: post).map blockBytes).join)]
    have hnot1 : (hdr.packet_type == 1) = false := by
      simp [hty]
    simp only [hnot1, if_false]
    have hgrp := recvGroups_unknown hdr.tick pre c s0 ms post
      ((((pre ++ (c, s0 :: ms) :: post).map blockBytes).join).length + 1) m
      (by omega) hpre hc hs0
    cases h4 : recvGroups hdr.tick
        ((((pre ++ (c, s0 :: ms) :: post).map blockBytes).join).length + 1) m
        (((pre ++ (c, s0 :: ms) :: post).map blockBytes).join) with
    | mk ok m2 =>
      rw [h4] at hgrp
      simp only at hgrp
      subst hgrp
      simp
  · intro hdr2 fd rest2 hw2 hty2 hfd
    unfold MessageManager.recv_packet
    rw [PacketHeader_roundtrip hdr2 hw2 (writeVarint c ++ (fd.to_bytes ++ rest2))]
    have h1 : (hdr2.packet_type == 1) = true := by simp [hty2]
    have hrm : m.recv_message c ⟨.fragment fd, hdr2.tick⟩ = none := by
      unfold MessageManager.recv_message
      simp [hc]
    simp only [h1, if_true, readVarint_writeVarint,
      FragmentData_roundtrip fd hfd rest2, hrm]
  · intro p k hk
    exact (recv_packet_outside m p).2 k hk

/-- Witness for C9 at a concrete manager and packet. -/
theorem C9_unknown_channel_drops_witness :
    ((⟨[(3, 30)], [(30, [])]⟩ : MessageManager).recv_packet
      (DataPacket.to_bytes ⟨⟨0, 0, 0, 7, 0⟩, [] ++ (5, ⟨none, [42]⟩ :: []) :: []⟩)).1
        = none ∧
    (∀ (hdr2 : PacketHeader) (fd : FragmentData) (rest2 : List Nat),
      hdr2.wfB = true → hdr2.packet_type = 1 → fd.wfB = true →
      ((⟨[(3, 30)], [(30, [])]⟩ : MessageManager).recv_packet
        (hdr2.to_bytes ++ (writeVarint 5 ++ (fd.to_bytes ++ rest2)))).1 =
        none) ∧
    ∀ (p : List Nat) (k : Nat),
      k ∉ (⟨[(3, 30)], [(30, [])]⟩ : MessageManager).channel_registry.map Prod.snd →
      alookup ((⟨[(3, 30)], [(30, [])]⟩ : MessageManager).recv_packet p).2.channels k =
        alookup (⟨[(3, 30)], [(30, [])]⟩ : MessageManager).channels k :=
  C9_unknown_channel_drops ⟨[(3, 30)], [(30, [])]⟩ ⟨0, 0, 0, 7, 0⟩
    [] 5 ⟨none, [42]⟩ [] [] (by decide) rfl (by simp) (by decide) (by decide)

/-- Counterexample to C9 as stated: a Data packet containing the
unregistered channel id 5 with a zero message count is processed
successfully (the tick is returned, no error), so not every packet
containing an unknown channel id is dropped. -/
theorem C9_counterexample :
    alookup (⟨[(3, 30)], [(30, [])]⟩ : MessageManager).channel_registry 5 = none ∧
    DataPacket.to_bytes ⟨⟨0, 0, 0, 7, 0⟩, [(5, [])]⟩ =
      [0, 0, 0, 0, 0, 0, 0, 0, 0, 7, 0, 5, 0] ∧
    ((⟨[(3, 30)], [(30, [])]⟩ : MessageManager).recv_packet
      [0, 0, 0, 0, 0, 0, 0, 0, 0, 7, 0, 5, 0]).1 = some 7 := by
  refine ⟨by decide, ?_, by decide⟩
  simp [DataPacket.to_bytes, blockBytes, PacketHeader.to_bytes, writeU16,
    writeU32, writeVarint]

/-! ### Replication sender (`shared/replication/send.rs`)

Group ids, message ids and ticks are `Nat`; bevy ticks are u32 values.
The `f32` priorities are modelled as rationals (all priority arithmetic
in the claims uses small exactly-representable values).  The hash maps
are association lists with the usual lookup/insert/remove/update. -/

/-- Association-list removal (`HashMap::remove`; keys are unique in a
hash map, so removing every matching entry is equivalent). -/
def aremove {β : Type} (l : List (Nat × β)) (k : Nat) : List (Nat × β) :=
  l.filter (fun p => p.1 != k)

/-- Association-list insertion (`HashMap::insert` replaces any previous
entry for the key). -/
def ainsert {β : Type} (l : List (Nat × β)) (k : Nat) (v : β) :
    List (Nat × β) :=
  aremove l k ++ [(k, v)]

/-- In-place update of the entry at `k`, if present (`HashMap::get_mut`
followed by a field assignment; absent key leaves the map unchanged). -/
def aupdate {β : Type} : List (Nat × β) → Nat → (β → β) → List (Nat × β)
  | [], _, _ => []
  | p :: rest, k, f =>
    if p.1 == k then (p.1, f p.2) :: rest else p :: aupdate rest k f

theorem alookup_aremove {β : Type} (l : List (Nat × β)) (k k' : Nat) :
    alookup (aremove l k) k' = if k' = k then none else alookup l k' := by
  induction l with
  | nil => simp [aremove, alookup]
  | cons p rest ih =>
    by_cases hpk : p.1 = k <;> by_cases hk : k' = k <;>
      by_cases hpk' : p.1 = k' <;>
      simp_all [aremove, alookup]

theorem alookup_ainsert {β : Type} (l : List (Nat × β)) (k : Nat) (v : β)
    (k' : Nat) :
    alookup (ainsert l k v) k' = if k' = k then some v else alookup l k' := by
  rw [ainsert]
  have happ : ∀ (l1 l2 : List (Nat × β)),
      alookup (l1 ++ l2) k' =
        match alookup l1 k' with
        | some v => some v
        | none => alookup l2 k' := by
    intro l1 l2
    induction l1 with
    | nil => simp [alookup]
    | cons p rest ih =>
      by_cases hp : p.1 = k' <;> simp_all [alookup]
  rw [happ, alookup_aremove]
  by_cases hk : k' = k
  · simp [hk, alookup]
  · have hkk : ¬ (k == k') = true := by
      simp
      exact fun h => hk h.symm
    simp only [hk, if_false]
    cases alookup l k' <;> simp [alookup, hkk]

theorem alookup_aupdate {β : Type} (l : List (Nat × β)) (k : Nat)
    (f : β → β) (k' : Nat) :
    alookup (aupdate l k f) k' =
      if k' = k then (alookup l k).map f else alookup l k' := by
  induction l with
  | nil => simp [aupdate, alookup]
  | cons p rest ih =>
    by_cases hpk : p.1 = k <;> by_cases hk : k' = k <;>
      by_cases hpk' : p.1 = k' <;>
      simp_all [aupdate, alookup]

/-- Bevy change-detection constant `MAX_CHANGE_AGE` (bevy_ecs; bevy is an
external dependency whose `Tick::is_newer_than` the sender calls). -/
def MAX_CHANGE_AGE : Nat := 4294967295 - (2 * 518400000 - 1)

/-- Bevy `Tick::relative_to`: wrapping u32 subtraction. -/
def bevyRelativeTo (a b : Nat) : Nat :=
  (a % 4294967296 + 4294967296 - b % 4294967296) % 4294967296

/-- Bevy `Tick::is_newer_than self last_run this_run`. -/
def bevyIsNewerThan (self last_run this_run : Nat) : Bool :=
  decide (min (bevyRelativeTo this_run self) MAX_CHANGE_AGE <
    min (bevyRelativeTo this_run last_run) MAX_CHANGE_AGE)

/-- `UpdateMessageMetadata`: group id, buffering bevy-tick and tick of a
buffered update message. -/
structure UpdateMessageMetadata where
  group_id : Nat
  bevy_tick : Nat
  tick : Nat
deriving DecidableEq

/-- `GroupChannel` (sender side). -/
structure GroupChannel where
  actions_next_send_message_id : Nat
  send_tick : Option Nat
  ack_bevy_tick : Option Nat
  ack_tick : Option Nat
  last_action_tick : Option Nat
  accumulated_priority : Option Rat
  base_priority : Rat
deriving DecidableEq

/-- `Default for GroupChannel`. -/
def GroupChannel.dflt : GroupChannel := ⟨0, none, none, none, none, none, 1⟩

/-- `ReplicationSender` state: the message-id-to-group map and the group
channels, plus the two configuration flags.  The crossbeam receivers are
modelled by passing the received id lists to the operations. -/
structure ReplicationSender where
  updates_message_id_to_group_id : List (Nat × UpdateMessageMetadata)
  group_channels : List (Nat × GroupChannel)
  send_updates_since_last_ack : Bool
  bandwidth_cap_enabled : Bool
deriving DecidableEq

/-- `ReplicationSender::buffer_replication_update_message` (identical to
the tail of `send_updates_messages`, lines 661-676): record the metadata
under the message id; if the bandwidth cap is disabled, buffering is
equivalent to sending, so `send_tick` advances right away. -/
def ReplicationSender.buffer_replication_update_message
    (s : ReplicationSender) (group_id message_id bevy_tick tick : Nat) :
    ReplicationSender :=
  let newMap := ainsert s.updates_message_id_to_group_id message_id ⟨group_id, bevy_tick, tick⟩
  let s1 := { s with updates_message_id_to_group_id := newMap }
  if s.bandwidth_cap_enabled then s1
  else
    let newChannels := aupdate s1.group_channels group_id (fun ch => { ch with send_tick := some bevy_tick })
    { s1 with group_channels := newChannels }

/-- Processing of one nacked message id inside `ReplicationSender::update`:
always remove the map entry; if the channel exists and the lost message's
bevy-tick is newer than the acked bevy-tick, reset `send_tick` back to
`ack_bevy_tick`. -/
def processNack (world_tick : Nat) (s : ReplicationSender)
    (message_id : Nat) : ReplicationSender :=
  match alookup s.updates_message_id_to_group_id message_id with
  | none => s
  | some meta =>
    let newMap := aremove s.updates_message_id_to_group_id message_id
    let s1 := { s with updates_message_id_to_group_id := newMap }
    let upd := fun (ch : GroupChannel) =>
      if ch.ack_bevy_tick.any (fun a => bevyIsNewerThan meta.bevy_tick a world_tick) then
        { ch with send_tick := ch.ack_bevy_tick }
      else ch
    let newChannels := aupdate s1.group_channels meta.group_id upd
    { s1 with group_channels := newChannels }

/-- `ReplicationSender::update`: drain the nack receiver. -/
def ReplicationSender.update (s : ReplicationSender) (world_tick : Nat)
    (nacks : List Nat) : ReplicationSender :=
  nacks.foldl (processNack world_tick) s

/-- One send-notification inside `recv_send_notification`: if the message
id is known and the channel exists, advance `send_tick` to the recorded
bevy-tick and reset the accumulated priority to zero (the map entry is
looked up, not removed). -/
def processSendNotify (s : ReplicationSender) (message_id : Nat) :
    ReplicationSender :=
  match alookup s.updates_message_id_to_group_id message_id with
  | none => s
  | some meta =>
    let upd := fun (ch : GroupChannel) =>
      { ch with send_tick := some meta.bevy_tick, accumulated_priority := some 0 }
    let newChannels := aupdate s.group_channels meta.group_id upd
    { s with group_channels := newChannels }

/-- The priority accumulation applied to one group channel at the end of
`recv_send_notification`: `accumulated_priority` becomes its previous
value plus `base_priority` (or `base_priority` when it was unset). -/
def accumulateOne (ch : GroupChannel) : GroupChannel :=
  let newAcc : Option Rat :=
    match ch.accumulated_priority with
    | none => some ch.base_priority
    | some acc => some (acc + ch.base_priority)
  { ch with accumulated_priority := newAcc }

/-- The final loop of `recv_send_notification`: every group channel
accumulates its base priority. -/
def accumulatePriorities (l : List (Nat × GroupChannel)) :
    List (Nat × GroupChannel) :=
  l.map (fun p => (p.1, accumulateOne p.2))

/-- `ReplicationSender::recv_send_notification`: early return when the
bandwidth cap is disabled; otherwise drain the send receiver, then
accumulate priorities for all group channels. -/
def ReplicationSender.recv_send_notification (s : ReplicationSender)
    (sends : List Nat) : ReplicationSender :=
  if s.bandwidth_cap_enabled then
    let s1 := sends.foldl processSendNotify s
    let newChannels := accumulatePriorities s1.group_channels
    { s1 with group_channels := newChannels }
  else s

/-- One ack inside `recv_update_acks`: remove the map entry; if the
channel exists, set `ack_bevy_tick` and `ack_tick` from the metadata
(the delta-manager ack bookkeeping does not touch the sender state and
is omitted). -/
def processAck (s : ReplicationSender) (message_id : Nat) :
    ReplicationSender :=
  match alookup s.updates_message_id_to_group_id message_id with
  | none => s
  | some meta =>
    let newMap := aremove s.updates_message_id_to_group_id message_id
    let s1 := { s with updates_message_id_to_group_id := newMap }
    let upd := fun (ch : GroupChannel) =>
      { ch with ack_bevy_tick := some meta.bevy_tick, ack_tick := some meta.tick }
    let newChannels := aupdate s1.group_channels meta.group_id upd
    { s1 with group_channels := newChannels }

/-- `ReplicationSender::recv_update_acks`: drain the ack receiver. -/
def ReplicationSender.recv_update_acks (s : ReplicationSender)
    (acks : List Nat) : ReplicationSender :=
  acks.foldl processAck s

/-- C1: on a nack for a buffered update message of group g whose channel
exists and has an acked bevy-tick, the message's map entry is removed;
`send_tick` is reset to `ack_bevy_tick` exactly when the message's
recorded bevy-tick is newer than the ack, and is left unchanged
otherwise. -/
theorem C1_nack_rollback (s : ReplicationSender) (world_tick mid : Nat)
    (meta : UpdateMessageMetadata) (ch : GroupChannel) (a : Nat)
    (hmid : alookup s.updates_message_id_to_group_id mid = some meta)
    (hch : alookup s.group_channels meta.group_id = some ch)
    (hack : ch.ack_bevy_tick = some a) :
    alookup (s.update world_tick [mid]).updates_message_id_to_group_id mid
        = none ∧
    (bevyIsNewerThan meta.bevy_tick a world_tick = true →
      (alookup (s.update world_tick [mid]).group_channels meta.group_id).map
          (fun c => c.send_tick) = some (some a)) ∧
    (bevyIsNewerThan meta.bevy_tick a world_tick = false →
      (alookup (s.update world_tick [mid]).group_channels meta.group_id).map
          (fun c => c.send_tick) = some ch.send_tick) := by
  have hrun : s.update world_tick [mid] = processNack world_tick s mid := rfl
  rw [hrun]
  unfold processNack
  rw [hmid]
  refine ⟨?_, ?_, ?_⟩
  · simp [alookup_aremove]
  · intro hnew
    simp only [alookup_aupdate, if_pos rfl, hch, Option.map_some]
    simp [hack, hnew]
  · intro hnot
    simp only [alookup_aupdate, if_pos rfl, hch, Option.map_some]
    simp [hack, hnot]

/-- Witness for C1: a concrete sender with one buffered message (bevy-tick
5) and one with an older bevy-tick, acked bevy-tick 3. -/
theorem C1_nack_rollback_witness :
    alookup ((⟨[(0, ⟨1, 5, 2⟩)],
        [(1, ⟨0, some 4, some 3, none, none, none, 1⟩)], false, false⟩ :
      ReplicationSender).update 10 [0]).updates_message_id_to_group_id 0
        = none ∧
    (bevyIsNewerThan 5 3 10 = true →
      (alookup ((⟨[(0, ⟨1, 5, 2⟩)],
          [(1, ⟨0, some 4, some 3, none, none, none, 1⟩)], false, false⟩ :
        ReplicationSender).update 10 [0]).group_channels 1).map
          (fun c => c.send_tick) = some (some 3)) ∧
    (bevyIsNewerThan 5 3 10 = false →
      (alookup ((⟨[(0, ⟨1, 5, 2⟩)],
          [(1, ⟨0, some 4, some 3, none, none, none, 1⟩)], false, false⟩ :
        ReplicationSender).update 10 [0]).group_channels 1).map
          (fun c => c.send_tick) = some (some 4)) :=
  C1_nack_rollback
    ⟨[(0, ⟨1, 5, 2⟩)], [(1, ⟨0, some 4, some 3, none, none, none, 1⟩)],
      false, false⟩
    10 0 ⟨1, 5, 2⟩ ⟨0, some 4, some 3, none, none, none, 1⟩ 3
    rfl rfl rfl

theorem alookup_accumulatePriorities (l : List (Nat × GroupChannel))
    (k : Nat) :
    alookup (accumulatePriorities l) k = (alookup l k).map accumulateOne := by
  induction l with
  | nil => simp [accumulatePriorities, alookup]
  | cons p rest ih =>
    by_cases hpk : p.1 = k <;> simp_all [accumulatePriorities, alookup]

/-- C3: with the bandwidth cap disabled, buffering an update message
advances the group's `send_tick` to the buffering bevy-tick (and the
send-notification handler is a no-op); with the cap enabled, buffering
leaves the group channel unchanged, and `send_tick` advances to the
message's bevy-tick exactly on a send notification for that MessageId
(a notification for an id that is not in the map does not move it). -/
theorem C3_send_tick_advance (s : ReplicationSender)
    (gid mid bt tk : Nat) (ch : GroupChannel)
    (hch : alookup s.group_channels gid = some ch) :
    (s.bandwidth_cap_enabled = false →
      alookup (s.buffer_replication_update_message gid mid bt tk).group_channels
          gid = some { ch with send_tick := some bt } ∧
      s.recv_send_notification [mid] = s) ∧
    (s.bandwidth_cap_enabled = true →
      alookup (s.buffer_replication_update_message gid mid bt tk).group_channels
          gid = some ch ∧
      (alookup ((s.buffer_replication_update_message gid mid bt
          tk).recv_send_notification [mid]).group_channels gid).map
          (fun c => c.send_tick) = some (some bt) ∧
      ∀ mid' : Nat,
        alookup (s.buffer_replication_update_message gid mid bt
            tk).updates_message_id_to_group_id mid' = none →
        (alookup ((s.buffer_replication_update_message gid mid bt
            tk).recv_send_notification [mid']).group_channels gid).map
            (fun c => c.send_tick) = some ch.send_tick) := by
  constructor
  · intro hcap
    constructor
    · unfold ReplicationSender.buffer_replication_update_message
      simp only [hcap, Bool.false_eq_true, if_false]
      simp [alookup_aupdate, hch]
    · unfold ReplicationSender.recv_send_notification
      simp [hcap]
  · intro hcap
    have hbuf : (s.buffer_replication_update_message gid mid bt tk).group_channels
        = s.group_channels := by
      unfold ReplicationSender.buffer_replication_update_message
      simp [hcap]
    have hbufmap : (s.buffer_replication_update_message gid mid bt
        tk).updates_message_id_to_group_id =
        ainsert s.updates_message_id_to_group_id mid ⟨gid, bt, tk⟩ := by
      unfold ReplicationSender.buffer_replication_update_message
      simp [hcap]
    have hbufcap : (s.buffer_replication_update_message gid mid bt
        tk).bandwidth_cap_enabled = true := by
      unfold ReplicationSender.buffer_replication_update_message
      simp [hcap]
    refine ⟨by rw [hbuf]; exact hch, ?_, ?_⟩
    · unfold ReplicationSender.recv_send_notification
      simp only [hbufcap, if_true, List.foldl]
      unfold processSendNotify
      rw [hbufmap]
      simp [alookup_ainsert, alookup_accumulatePriorities, alookup_aupdate,
        hbuf, hch, accumulateOne]
    · intro mid' hmid'
      unfold ReplicationSender.recv_send_notification
      simp only [hbufcap, if_true, List.foldl]
      unfold processSendNotify
      rw [hbufmap] at hmid' ⊢
      rw [hmid']
      rw [alookup_accumulatePriorities, hbuf, hch]
      rfl

/-- Witness for C3 at a concrete cap-disabled sender. -/
theorem C3_send_tick_advance_witness :
    ((⟨[], [(2, GroupChannel.dflt)], false, false⟩ :
        ReplicationSender).bandwidth_cap_enabled = false →
      alookup ((⟨[], [(2, GroupChannel.dflt)], false, false⟩ :
          ReplicationSender).buffer_replication_update_message 2 0 9
          1).group_channels 2 =
        some { GroupChannel.dflt with send_tick := some 9 } ∧
      (⟨[], [(2, GroupChannel.dflt)], false, false⟩ :
          ReplicationSender).recv_send_notification [0] =
        ⟨[], [(2, GroupChannel.dflt)], false, false⟩) ∧
    ((⟨[], [(2, GroupChannel.dflt)], false, false⟩ :
        ReplicationSender).bandwidth_cap_enabled = true →
      alookup ((⟨[], [(2, GroupChannel.dflt)], false, false⟩ :
          ReplicationSender).buffer_replication_update_message 2 0 9
          1).group_channels 2 = some GroupChannel.dflt ∧
      (alookup (((⟨[], [(2, GroupChannel.dflt)], false, false⟩ :
          ReplicationSender).buffer_replication_update_message 2 0 9
          1).recv_send_notification [0]).group_channels 2).map
          (fun c => c.send_tick) = some (some 9) ∧
      ∀ mid' : Nat,
        alookup ((⟨[], [(2, GroupChannel.dflt)], false, false⟩ :
            ReplicationSender).buffer_replication_update_message 2 0 9
            1).updates_message_id_to_group_id mid' = none →
        (alookup (((⟨[], [(2, GroupChannel.dflt)], false, false⟩ :
            ReplicationSender).buffer_replication_update_message 2 0 9
            1).recv_send_notification [mid']).group_channels 2).map
            (fun c => c.send_tick) = some GroupChannel.dflt.send_tick) :=
  C3_send_tick_advance ⟨[], [(2, GroupChannel.dflt)], false, false⟩
    2 0 9 1 GroupChannel.dflt rfl

/-- Counterexample to C4 as stated: a cap-enabled sender with one group
(base priority 1, accumulated 5) receives a send notification for its
buffered message; afterwards the group's accumulated priority is 1 (its
base priority), not 0, because the end-of-flush accumulation loop also
runs over the groups that were just reset. -/
theorem C4_counterexample :
    (alookup ((⟨[(0, ⟨1, 5, 2⟩)],
        [(1, ⟨0, none, none, none, none, some 5, 1⟩)], false, true⟩ :
      ReplicationSender).recv_send_notification [0]).group_channels 1).map
        (fun c => c.accumulated_priority) = some (some 1) ∧
    some (some (1 : Rat)) ≠ some (some (0 : Rat)) := by
  refine ⟨?_, by simp⟩
  norm_num [ReplicationSender.recv_send_notification, processSendNotify,
    accumulatePriorities, accumulateOne, alookup, aupdate, List.foldl]

/-- C4 (amended): when the rate limiter (bandwidth cap) is enabled, a
successful send notification first resets the group's accumulated
priority to zero and advances its `send_tick`, and then the end-of-flush
accumulation adds `base_priority` to every group; so the
successfully-sent group ends the flush at exactly `base_priority`, and
every group that was not sent ends at its previous accumulated priority
plus `base_priority`. -/
theorem C4_priority_reset (s : ReplicationSender) (mid : Nat)
    (meta : UpdateMessageMetadata) (ch : GroupChannel)
    (hcap : s.bandwidth_cap_enabled = true)
    (hmid : alookup s.updates_message_id_to_group_id mid = some meta)
    (hch : alookup s.group_channels meta.group_id = some ch) :
    (alookup (s.recv_send_notification [mid]).group_channels
        meta.group_id).map
        (fun c => (c.send_tick, c.accumulated_priority)) =
      some (some meta.bevy_tick, some ch.base_priority) ∧
    ∀ gid' ch', gid' ≠ meta.group_id →
      alookup s.group_channels gid' = some ch' →
      alookup (s.recv_send_notification [mid]).group_channels gid' =
        some (accumulateOne ch') := by
  have hnotif : (s.recv_send_notification [mid]).group_channels =
      accumulatePriorities (processSendNotify s mid).group_channels := by
    unfold ReplicationSender.recv_send_notification
    simp [hcap, List.foldl]
  have hproc : (processSendNotify s mid).group_channels =
      aupdate s.group_channels meta.group_id
        (fun c => { c with send_tick := some meta.bevy_tick,
                           accumulated_priority := some 0 }) := by
    unfold processSendNotify
    rw [hmid]
  constructor
  · rw [hnotif, hproc, alookup_accumulatePriorities, alookup_aupdate]
    simp [hch, accumulateOne]
  · intro gid' ch' hne hch'
    rw [hnotif, hproc, alookup_accumulatePriorities, alookup_aupdate]
    simp [hne, hch']

/-- Witness for C4 at a concrete two-group sender. -/
theorem C4_priority_reset_witness :
    (alookup ((⟨[(0, ⟨1, 5, 2⟩)],
        [(1, ⟨0, none, none, none, none, some 5, 1⟩),
         (2, ⟨0, none, none, none, none, none, 2⟩)], false, true⟩ :
      ReplicationSender).recv_send_notification [0]).group_channels 1).map
        (fun c => (c.send_tick, c.accumulated_priority)) =
      some (some 5, some 1) ∧
    ∀ gid' ch', gid' ≠ 1 →
      alookup (⟨[(0, ⟨1, 5, 2⟩)],
        [(1, ⟨0, none, none, none, none, some 5, 1⟩),
         (2, ⟨0, none, none, none, none, none, 2⟩)], false, true⟩ :
          ReplicationSender).group_channels gid' = some ch' →
      alookup ((⟨[(0, ⟨1, 5, 2⟩)],
        [(1, ⟨0, none, none, none, none, some 5, 1⟩),
         (2, ⟨0, none, none, none, none, none, 2⟩)], false, true⟩ :
        ReplicationSender).recv_send_notification [0]).group_channels gid' =
        some (accumulateOne ch') :=
  C4_priority_reset
    ⟨[(0, ⟨1, 5, 2⟩)],
      [(1, ⟨0, none, none, none, none, some 5, 1⟩),
       (2, ⟨0, none, none, none, none, none, 2⟩)], false, true⟩
    0 ⟨1, 5, 2⟩ ⟨0, none, none, none, none, some 5, 1⟩
    rfl rfl rfl

/-! ### The `ack_bevy_tick ≤ send_tick` invariant (C2) -/

/-- The channel-level invariant: whenever the acked bevy-tick is set, the
send tick is also set and at least as large. -/
def chOkB (ch : GroupChannel) : Bool :=
  match ch.ack_bevy_tick, ch.send_tick with
  | none, _ => true
  | some _, none => false
  | some a, some st => decide (a ≤ st)

/-- The invariant over all group channels of a sender. -/
def ackLeSendB (s : ReplicationSender) : Bool :=
  s.group_channels.all (fun p => chOkB p.2)

/-- The sender operations driven by buffering and by the three crossbeam
receivers (send-notification, ack, nack). -/
inductive SenderOp
  | buffer (group_id message_id bevy_tick tick : Nat)
  | notify (message_id : Nat)
  | ack (message_id : Nat)
  | nack (message_id : Nat) (world_tick : Nat)

def applyOp (s : ReplicationSender) : SenderOp → ReplicationSender
  | .buffer gid mid bt tk => s.buffer_replication_update_message gid mid bt tk
  | .notify mid => s.recv_send_notification [mid]
  | .ack mid => s.recv_update_acks [mid]
  | .nack mid w => s.update w [mid]

def applyOps (s : ReplicationSender) (ops : List SenderOp) :
    ReplicationSender :=
  ops.foldl applyOp s

/-- Well-formedness of one operation against the current state: bevy
ticks written into `send_tick` are not older than the current acked tick,
and an ack refers to a message whose recorded bevy-tick is at most the
current `send_tick` (which holds in the real system, where acks arrive
only for messages that were actually sent and world ticks are
nondecreasing). -/
def wfOpB (s : ReplicationSender) : SenderOp → Bool
  | .buffer gid _ bt _ =>
    match alookup s.group_channels gid with
    | none => true
    | some ch => ch.ack_bevy_tick.all (fun a => decide (a ≤ bt))
  | .notify mid =>
    match alookup s.updates_message_id_to_group_id mid with
    | none => true
    | some meta =>
      match alookup s.group_channels meta.group_id with
      | none => true
      | some ch => ch.ack_bevy_tick.all (fun a => decide (a ≤ meta.bevy_tick))
  | .ack mid =>
    match alookup s.updates_message_id_to_group_id mid with
    | none => true
    | some meta =>
      match alookup s.group_channels meta.group_id with
      | none => true
      | some ch =>
        match ch.send_tick with
        | none => false
        | some st => decide (meta.bevy_tick ≤ st)
  | .nack _ _ => true

/-- Well-formedness of a whole operation sequence, each operation checked
against the state it runs in. -/
def wfTraceB (s : ReplicationSender) : List SenderOp → Bool
  | [] => true
  | op :: ops => wfOpB s op && wfTraceB (applyOp s op) ops

theorem all_aupdate {β : Type} (P : β → Bool) (l : List (Nat × β)) (k : Nat)
    (f : β → β) (hl : l.all (fun p => P p.2) = true)
    (hf : ∀ v, alookup l k = some v → P v = true → P (f v) = true) :
    (aupdate l k f).all (fun p => P p.2) = true := by
  induction l with
  | nil => simp [aupdate]
  | cons p rest ih =>
    rw [List.all_cons, Bool.and_eq_true] at hl
    obtain ⟨hp, hrest⟩ := hl
    by_cases hpk : p.1 = k
    · have hbeq : (p.1 == k) = true := by simp [hpk]
      have hlook : alookup (p :: rest) k = some p.2 := by
        simp [alookup, hbeq]
      rw [aupdate]
      simp only [hbeq, if_true, List.all_cons, Bool.and_eq_true]
      exact ⟨hf p.2 hlook hp, hrest⟩
    · have hbeq : (p.1 == k) = false := by simp [hpk]
      rw [aupdate]
      simp only [hbeq, Bool.false_eq_true, if_false, List.all_cons,
        Bool.and_eq_true]
      refine ⟨hp, ih hrest ?_⟩
      intro v hv hPv
      refine hf v ?_ hPv
      simp [alookup, hbeq, hv]

theorem chOkB_accumulateOne (ch : GroupChannel) :
    chOkB (accumulateOne ch) = chOkB ch := rfl

theorem all_accumulatePriorities (l : List (Nat × GroupChannel))
    (hl : l.all (fun p => chOkB p.2) = true) :
    (accumulatePriorities l).all (fun p => chOkB p.2) = true := by
  induction l with
  | nil => simp [accumulatePriorities]
  | cons p rest ih =>
    rw [List.all_cons, Bool.and_eq_true] at hl
    simp only [accumulatePriorities, List.map_cons, List.all_cons,
      Bool.and_eq_true]
    exact ⟨by rw [chOkB_accumulateOne]; exact hl.1, ih hl.2⟩

theorem ackLeSend_step (s : ReplicationSender) (op : SenderOp)
    (h0 : ackLeSendB s = true) (hwf : wfOpB s op = true) :
    ackLeSendB (applyOp s op) = true := by
  cases op with
  | buffer gid mid bt tk =>
    show ackLeSendB (s.buffer_replication_update_message gid mid bt tk) = true
    unfold ReplicationSender.buffer_replication_update_message
    by_cases hcap : s.bandwidth_cap_enabled
    · simpa [hcap, ackLeSendB] using h0
    · simp only [hcap, Bool.false_eq_true, if_false]
      show (aupdate s.group_channels gid _).all (fun p => chOkB p.2) = true
      refine all_aupdate _ _ _ _ h0 ?_
      intro v hv hPv
      simp only [wfOpB, hv] at hwf
      cases hack : v.ack_bevy_tick with
      | none => simp [chOkB, hack]
      | some a =>
        rw [hack] at hwf
        simp only [Option.all_some, decide_eq_true_eq] at hwf
        simp [chOkB, hack, hwf]
  | notify mid =>
    show ackLeSendB (s.recv_send_notification [mid]) = true
    unfold ReplicationSender.recv_send_notification
    by_cases hcap : s.bandwidth_cap_enabled
    · simp only [hcap, if_true, List.foldl]
      show (accumulatePriorities (processSendNotify s mid).group_channels).all
        (fun p => chOkB p.2) = true
      refine all_accumulatePriorities _ ?_
      unfold processSendNotify
      cases hmid : alookup s.updates_message_id_to_group_id mid with
      | none => simpa [ackLeSendB] using h0
      | some meta =>
        simp only
        refine all_aupdate _ _ _ _ h0 ?_
        intro v hv hPv
        simp only [wfOpB, hmid, hv] at hwf
        cases hack : v.ack_bevy_tick with
        | none => simp [chOkB, hack]
        | some a =>
          rw [hack] at hwf
          simp only [Option.all_some, decide_eq_true_eq] at hwf
          simp [chOkB, hack, hwf]
    · simpa [hcap] using h0
  | ack mid =>
    show ackLeSendB (s.recv_update_acks [mid]) = true
    show ackLeSendB (processAck s mid) = true
    unfold processAck
    cases hmid : alookup s.updates_message_id_to_group_id mid with
    | none => exact h0
    | some meta =>
      simp only
      refine all_aupdate _ _ _ _ h0 ?_
      intro v hv hPv
      simp only [wfOpB, hmid, hv] at hwf
      cases hst : v.send_tick with
      | none => rw [hst] at hwf; simp at hwf
      | some st =>
        rw [hst] at hwf
        simp only [decide_eq_true_eq] at hwf
        simp [chOkB, hst, hwf]
  | nack mid w =>
    show ackLeSendB (s.update w [mid]) = true
    show ackLeSendB (processNack w s mid) = true
    unfold processNack
    cases hmid : alookup s.updates_message_id_to_group_id mid with
    | none => exact h0
    | some meta =>
      simp only
      refine all_aupdate _ _ _ _ h0 ?_
      intro v hv hPv
      by_cases hany : v.ack_bevy_tick.any
          (fun a => bevyIsNewerThan meta.bevy_tick a w) = true
      · simp only [hany, if_true]
        cases hack : v.ack_bevy_tick with
        | none => rw [hack] at hany; simp at hany
        | some a => simp [chOkB, hack]
      · simp only [Bool.not_eq_true] at hany
        simp [hany, hPv]

/-- C2 (amended): along any well-formed operation sequence (each written
`send_tick` not older than the current ack, each ack not newer than the
current `send_tick` — both guaranteed by the real ack/send pipeline),
the invariant "whenever `ack_bevy_tick` is set, `send_tick` is set and
`ack_bevy_tick ≤ send_tick`" is preserved for every group channel. -/
theorem C2_ack_le_send_invariant (s : ReplicationSender)
    (ops : List SenderOp) (h0 : ackLeSendB s = true)
    (hwf : wfTraceB s ops = true) :
    ackLeSendB (applyOps s ops) = true := by
  induction ops generalizing s with
  | nil => exact h0
  | cons op ops ih =>
    rw [wfTraceB, Bool.and_eq_true] at hwf
    exact ih (applyOp s op) (ackLeSend_step s op h0 hwf.1) hwf.2

/-- Witness for C2 on a concrete cap-disabled sender: buffer a message at
bevy-tick 5 and ack it. -/
theorem C2_ack_le_send_invariant_witness :
    ackLeSendB (applyOps ⟨[], [(0, GroupChannel.dflt)], false, false⟩
      [.buffer 0 0 5 2, .ack 0]) = true :=
  C2_ack_le_send_invariant ⟨[], [(0, GroupChannel.dflt)], false, false⟩
    [.buffer 0 0 5 2, .ack 0] (by decide) (by decide)

/-- Counterexample to C2 as stated: with the bandwidth cap enabled, the
sequence "buffer a message at bevy-tick 1, then receive its ack" leaves
`ack_bevy_tick = some 1` while `send_tick` is still unset, so the
invariant does not hold after arbitrary operation sequences. -/
theorem C2_counterexample :
    (alookup (applyOps ⟨[], [(0, GroupChannel.dflt)], false, true⟩
        [.buffer 0 0 1 0, .ack 0]).group_channels 0).map
      (fun c => (c.ack_bevy_tick, c.send_tick)) = some (some 1, none) ∧
    ackLeSendB (applyOps ⟨[], [(0, GroupChannel.dflt)], false, true⟩
      [.buffer 0 0 1 0, .ack 0]) = false := by
  constructor
  · decide
  · decide

/-! ### Tick arithmetic and the tick-snap shift (C8)

`Tick` is a wrapping u16 counter (`wrapping_id` macro; `Tick - Tick`
yields an i16 wrapping difference and `Tick + i16` is a wrapping add).
The system `receive_tick_events` is transcribed from
`client/input/leafwing.rs` lines 765-814; the `InputBuffer` /
`ActionDiffBuffer` containers live in the missing
`inputs/leafwing/input_buffer.rs` and are modelled from the spec as
tick-indexed buffers with an optional `start_tick`. -/

/-- Wrapping 16-bit tick plus a signed offset (`Tick + i16`). -/
def tickAddI (t : Nat) (d : Int) : Nat :=
  (((t : Int) + d) % 65536).toNat

/-- The wrapping 16-bit difference as an unsigned residue. -/
def tickDiffAux (a b : Nat) : Nat :=
  (a % 65536 + 65536 - b % 65536) % 65536

/-- Signed 16-bit tick difference (`Tick - Tick → i16`): the residue,
interpreted as a signed 16-bit value. -/
def tickDiff (a b : Nat) : Int :=
  if tickDiffAux a b < 32768 then (tickDiffAux a b : Int)
  else (tickDiffAux a b : Int) - 65536

/-- Modelled from the spec: a tick-indexed buffer (the `InputBuffer` and
`ActionDiffBuffer` of the missing `inputs/leafwing/input_buffer.rs`):
an optional start tick and a dense sequence of per-tick entries. -/
structure TickBuffer (α : Type) where
  start_tick : Option Nat
  buffer : List α
deriving DecidableEq

/-- Modelled from the spec: `get(tick)` returns the entry at the signed
wrapping offset `tick - start_tick` when it falls inside the buffer. -/
def TickBuffer.get {α : Type} (b : TickBuffer α) (tick : Nat) : Option α :=
  match b.start_tick with
  | none => none
  | some s =>
    let d := tickDiff tick s
    if 0 ≤ d ∧ d < b.buffer.length then b.buffer[d.toNat]? else none

/-- The per-buffer shift performed by `receive_tick_events` on a
`TickSnap { old_tick, new_tick }`: when `start_tick` is set it moves by
`new_tick - old_tick`; nothing else changes. -/
def shiftBuffer {α : Type} (old_tick new_tick : Nat) (b : TickBuffer α) :
    TickBuffer α :=
  match b.start_tick with
  | none => b
  | some s =>
    { b with start_tick := some (tickAddI s (tickDiff new_tick old_tick)) }

/-- The tick-indexed input state touched by `receive_tick_events`: the
global `InputBuffer` and `ActionDiffBuffer` resources and the per-entity
buffers. -/
structure InputTimelines (α δ : Type) where
  global_input : TickBuffer α
  global_diffs : TickBuffer δ
  entity_inputs : List (Nat × TickBuffer α)
  entity_diffs : List (Nat × TickBuffer δ)

/-- `receive_tick_events` for one `TickEvent::TickSnap`: shift the
start tick of every tick-indexed buffer. -/
def receive_tick_events {α δ : Type} (old_tick new_tick : Nat)
    (st : InputTimelines α δ) : InputTimelines α δ :=
  ⟨shiftBuffer old_tick new_tick st.global_input,
   shiftBuffer old_tick new_tick st.global_diffs,
   st.entity_inputs.map (fun p => (p.1, shiftBuffer old_tick new_tick p.2)),
   st.entity_diffs.map (fun p => (p.1, shiftBuffer old_tick new_tick p.2))⟩

/-- What the snap does to one buffer: entries unchanged, start tick
shifted by `d`, and reads at shifted ticks return the old values. -/
def ShiftedBy {α : Type} (d : Int) (b b' : TickBuffer α) : Prop :=
  b'.buffer = b.buffer ∧
  b'.start_tick = b.start_tick.map (fun s => tickAddI s d) ∧
  ∀ t : Nat, b'.get (tickAddI t d) = b.get t

theorem tickDiffAux_shift (t s : Nat) (d : Int) :
    tickDiffAux (tickAddI t d) (tickAddI s d) = tickDiffAux t s := by
  unfold tickDiffAux tickAddI
  omega

theorem tickDiff_shift (t s : Nat) (d : Int) :
    tickDiff (tickAddI t d) (tickAddI s d) = tickDiff t s := by
  unfold tickDiff
  rw [tickDiffAux_shift]

theorem shiftBuffer_shifted {α : Type} (old_tick new_tick : Nat)
    (b : TickBuffer α) :
    ShiftedBy (tickDiff new_tick old_tick) b
      (shiftBuffer old_tick new_tick b) := by
  cases hst : b.start_tick with
  | none =>
    refine ⟨by simp [shiftBuffer, hst], by simp [shiftBuffer, hst], ?_⟩
    intro t
    simp [shiftBuffer, hst, TickBuffer.get]
  | some s =>
    refine ⟨by simp [shiftBuffer, hst], by simp [shiftBuffer, hst], ?_⟩
    intro t
    simp only [shiftBuffer, hst, TickBuffer.get]
    rw [tickDiff_shift]

theorem alookup_mapval {β γ : Type} (f : β → γ) (l : List (Nat × β))
    (k : Nat) :
    alookup (l.map (fun p => (p.1, f p.2))) k = (alookup l k).map f := by
  induction l with
  | nil => simp [alookup]
  | cons p rest ih =>
    by_cases hpk : p.1 = k <;> simp_all [alookup]

/-- C8: on a `TickSnap { old_tick, new_tick }` event, every tick-indexed
buffer (the global input and action-diff buffers and every entity's
buffers) has its start tick shifted by exactly `new_tick - old_tick`
(signed wrapping difference), its entries are unchanged, and a read at
any shifted tick returns what the original tick returned before: e.g.
after a snap from 1000 to 500, `get 501` returns the old `get 1001`. -/
theorem C8_tick_snap {α δ : Type} (st : InputTimelines α δ)
    (old_tick new_tick : Nat) :
    ShiftedBy (tickDiff new_tick old_tick) st.global_input
      (receive_tick_events old_tick new_tick st).global_input ∧
    ShiftedBy (tickDiff new_tick old_tick) st.global_diffs
      (receive_tick_events old_tick new_tick st).global_diffs ∧
    (∀ e : Nat,
      alookup (receive_tick_events old_tick new_tick st).entity_inputs e =
        (alookup st.entity_inputs e).map (shiftBuffer old_tick new_tick)) ∧
    (∀ e : Nat,
      alookup (receive_tick_events old_tick new_tick st).entity_diffs e =
        (alookup st.entity_diffs e).map (shiftBuffer old_tick new_tick)) ∧
    (∀ (b : TickBuffer α),
      ShiftedBy (tickDiff new_tick old_tick) b
        (shiftBuffer old_tick new_tick b)) ∧
    (∀ (b : TickBuffer δ),
      ShiftedBy (tickDiff new_tick old_tick) b
        (shiftBuffer old_tick new_tick b)) := by
  refine ⟨shiftBuffer_shifted old_tick new_tick st.global_input,
    shiftBuffer_shifted old_tick new_tick st.global_diffs, ?_, ?_, ?_, ?_⟩
  · intro e
    exact alookup_mapval (shiftBuffer old_tick new_tick) st.entity_inputs e
  · intro e
    exact alookup_mapval (shiftBuffer old_tick new_tick) st.entity_diffs e
  · intro b
    exact shiftBuffer_shifted old_tick new_tick b
  · intro b
    exact shiftBuffer_shifted old_tick new_tick b

/-- Witness for C8: the snap from tick 1000 to tick 500 of the claim, on
a concrete state whose input buffer starts at tick 995. -/
theorem C8_tick_snap_witness :
    ShiftedBy (tickDiff 500 1000) (⟨some 995, [10, 11]⟩ : TickBuffer Nat)
      (receive_tick_events 1000 500
        (⟨⟨some 995, [10, 11]⟩, ⟨none, []⟩, [], []⟩ :
          InputTimelines Nat Nat)).global_input ∧
    ShiftedBy (tickDiff 500 1000) (⟨none, []⟩ : TickBuffer Nat)
      (receive_tick_events 1000 500
        (⟨⟨some 995, [10, 11]⟩, ⟨none, []⟩, [], []⟩ :
          InputTimelines Nat Nat)).global_diffs ∧
    (∀ e : Nat,
      alookup (receive_tick_events 1000 500
        (⟨⟨some 995, [10, 11]⟩, ⟨none, []⟩, [], []⟩ :
          InputTimelines Nat Nat)).entity_inputs e =
        (alookup ([] : List (Nat × TickBuffer Nat)) e).map
          (shiftBuffer 1000 500)) ∧
    (∀ e : Nat,
      alookup (receive_tick_events 1000 500
        (⟨⟨some 995, [10, 11]⟩, ⟨none, []⟩, [], []⟩ :
          InputTimelines Nat Nat)).entity_diffs e =
        (alookup ([] : List (Nat × TickBuffer Nat)) e).map
          (shiftBuffer 1000 500)) ∧
    (∀ (b : TickBuffer Nat),
      ShiftedBy (tickDiff 500 1000) b (shiftBuffer 1000 500 b)) ∧
    (∀ (b : TickBuffer Nat),
      ShiftedBy (tickDiff 500 1000) b (shiftBuffer 1000 500 b)) :=
  C8_tick_snap (⟨⟨some 995, [10, 11]⟩, ⟨none, []⟩, [], []⟩ :
    InputTimelines Nat Nat) 1000 500

/-! ### Input message coverage (C5)

`prepare_input_message` (`client/input/leafwing.rs` lines 650-763)
computes `num_tick = client_send_interval / tick_duration + 1` (integer
division of the nanosecond durations) and
`message_len = packet_redundancy * num_tick`, then calls
`add_to_message(message, tick, message_len, target)` for every
controlled entity.  `add_to_message` lives in the missing
`inputs/leafwing/input_buffer.rs` and is modelled from the spec: the
message carries, per target, the diffs of the `message_len` consecutive
ticks ending at the (delayed) current tick. -/

/-- Wrapping 16-bit subtraction of an offset from a tick. -/
def tickSubN (t n : Nat) : Nat :=
  (t % 65536 + 65536 - n % 65536) % 65536

/-- Modelled from the spec: the ticks covered by
`add_to_message(message, end_tick, num_ticks, target)` — the `num_ticks`
consecutive wrapping ticks ending at `end_tick`. -/
def coveredTicks (end_tick num_ticks : Nat) : List Nat :=
  (List.range num_ticks).map
    (fun j => (tickSubN end_tick (num_ticks - 1) + j) % 65536)

/-- The message length computed by `prepare_input_message`:
`num_tick = send_interval_nanos / tick_duration_nanos + 1` and
`message_len = packet_redundancy * num_tick`. -/
def message_len
    (packet_redundancy send_interval_nanos tick_duration_nanos : Nat) :
    Nat :=
  packet_redundancy * (send_interval_nanos / tick_duration_nanos + 1)

/-- `prepare_input_message`, projected to the tick window it transmits:
the end tick of the assembled `InputMessage` and the list of ticks whose
diffs it carries for a target. -/
def prepare_input_message
    (packet_redundancy send_interval_nanos tick_duration_nanos tick : Nat) :
    Nat × List Nat :=
  (tick, coveredTicks tick
    (message_len packet_redundancy send_interval_nanos tick_duration_nanos))

/-- Counterexample to C5 as stated: with `packet_redundancy = 3` and one
tick per send interval (`client_send_interval = tick_duration`), the
message covers 6 ticks, not the claimed `3 * 1 + 1 = 4`; at tick 20 it
carries ticks 15 through 20, not 18 through 20 and not 17 through 20. -/
theorem C5_counterexample :
    message_len 3 1 1 = 6 ∧ 3 * 1 + 1 = 4 ∧ (6 : Nat) ≠ 4 ∧
    (prepare_input_message 3 1 1 20).2 = [15, 16, 17, 18, 19, 20] ∧
    (prepare_input_message 3 1 1 20).2 ≠ [17, 18, 19, 20] ∧
    (prepare_input_message 3 1 1 20).2 ≠ [18, 19, 20] := by
  refine ⟨by decide, by decide, by decide, ?_, by decide, by decide⟩
  decide

/-- C5 (amended): an input message assembled at (delayed) tick `t`
carries diffs covering exactly the last
`packet_redundancy * (send_interval / tick_duration + 1)` consecutive
ticks ending at `t`; in particular with `packet_redundancy = 3` and a
send interval shorter than a tick (one message per tick), the message
sent at tick 20 contains diffs for ticks 18 through 20. -/
theorem C5_input_message_coverage
    (r i d t : Nat) (_hd : 0 < d) :
    (prepare_input_message r i d t).1 = t ∧
    (prepare_input_message r i d t).2 =
      coveredTicks t (r * (i / d + 1)) ∧
    (prepare_input_message r i d t).2.length = r * (i / d + 1) ∧
    (i < d → r = 3 → t = 20 →
      (prepare_input_message r i d t).2 = [18, 19, 20]) := by
  refine ⟨rfl, rfl, ?_, ?_⟩
  · simp [prepare_input_message, coveredTicks, message_len]
  · intro hid hr ht
    subst hr ht
    have hdiv : i / d = 0 := Nat.div_eq_of_lt hid
    simp only [prepare_input_message, message_len, hdiv]
    decide

/-- Witness for C5 at concrete parameters (redundancy 3, send interval
shorter than the tick duration, tick 20). -/
theorem C5_input_message_coverage_witness :
    (prepare_input_message 3 1 2 20).1 = 20 ∧
    (prepare_input_message 3 1 2 20).2 =
      coveredTicks 20 (3 * (1 / 2 + 1)) ∧
    (prepare_input_message 3 1 2 20).2.length = 3 * (1 / 2 + 1) ∧
    (1 < 2 → 3 = 3 → 20 = 20 →
      (prepare_input_message 3 1 2 20).2 = [18, 19, 20]) :=
  C5_input_message_coverage 3 1 2 20 (by decide)

end Lightyear
